import Mathlib

/-!
Verification of the smol-dev-go pipeline orchestrator (`main.go`) against its
natural-language specification.

The Go source is shallowly embedded: the filesystem is a map from paths to
file contents, the external LLM calls are parameters delivering their results
(or failures), and `path/filepath` operations (`Clean`, `Join`, `Dir`) are
translated to executable Lean functions over character lists.
-/

namespace SmolDev

/-! ## Path model: `path/filepath.Clean`, `Join`, `Dir` -/

/-- Split a character list on `'/'` separators (model of splitting a path
into its elements, as `filepath.Clean` processes them). -/
def splitOnSlash : List Char → List (List Char)
  | [] => [[]]
  | c :: rest =>
    match splitOnSlash rest with
    | seg :: segs => if c = '/' then [] :: seg :: segs else (c :: seg) :: segs
    | [] => [[]]

/-- One step of `filepath.Clean`'s element processing: `""` and `"."`
elements are dropped; `".."` pops a non-`".."` stack top, is dropped at the
root, and is kept otherwise; every other element is pushed. -/
def cleanPush (rooted : Bool) (st : List (List Char)) (e : List Char) : List (List Char) :=
  if e = [] ∨ e = ['.'] then st
  else if e = ['.', '.'] then
    match st with
    | t :: rest => if t = ['.', '.'] then e :: t :: rest else rest
    | [] => if rooted then [] else [e]
  else e :: st

/-- Join path elements back with `'/'`. -/
def joinWithSlash : List (List Char) → List Char
  | [] => []
  | [e] => e
  | e :: rest => e ++ '/' :: joinWithSlash rest

/-- `filepath.Clean` on a character list: lexical simplification of a path
(empty path becomes `"."`, `"."`/`".."` elements resolved, duplicate
separators removed, rootedness preserved). -/
def cleanL (p : List Char) : List Char :=
  match p with
  | [] => ['.']
  | c :: _ =>
    let rooted := c = '/'
    let elems := (splitOnSlash p).foldl (cleanPush rooted) []
    let body := joinWithSlash elems.reverse
    if rooted then '/' :: body
    else if body = [] then ['.'] else body

/-- `filepath.Clean` on strings. -/
def clean (p : String) : String := ⟨cleanL p.data⟩

/-- `filepath.Join` of two elements, as Go implements it: empty leading
elements are skipped, the remainder is joined with `'/'` and cleaned; all
empty yields the empty string. -/
def goJoin (a b : String) : String :=
  if a = "" then (if b = "" then "" else clean b)
  else ⟨cleanL (a.data ++ '/' :: b.data)⟩

/-- The prefix of `l` up to and including the last occurrence of `c`,
if `c` occurs in `l` at all. -/
def takeToLast (c : Char) : List Char → Option (List Char)
  | [] => none
  | a :: rest =>
    match takeToLast c rest with
    | some t => some (a :: t)
    | none => if a = c then some [a] else none

/-- `filepath.Dir`: everything up to and including the final separator,
cleaned; `"."` when there is no separator. -/
def goDir (p : String) : String :=
  match takeToLast '/' p.data with
  | some pre => ⟨cleanL pre⟩
  | none => "."

/-- `pathInTargetDir` from `main.go`: resolve a manifest entry under the
target directory with `filepath.Join` (the alongside `os.MkdirAll` of the
target directory is a side effect with no bearing on the returned path). -/
def pathInTargetDir (targetDir path : String) : String := goJoin targetDir path

/-! ## Filesystem model -/

/-- A filesystem: a map from path to file contents (`none` = file absent).
A zero-byte file is `some ""`. -/
def FS : Type := String → Option String

/-- `fileExists` from `main.go`: `os.Stat` succeeds iff the path is present. -/
def fileExists (fs : FS) (path : String) : Bool := (fs path).isSome

/-- `fileExistsAndNonEmpty` from `main.go`: exists and `Size() > 0`. -/
def fileExistsAndNonEmpty (fs : FS) (path : String) : Bool :=
  if ! fileExists fs path then false
  else
    match fs path with
    | some contents => decide (0 < contents.length)
    | none => false

/-- Write (create or overwrite) a file. -/
def fsUpdate (fs : FS) (path contents : String) : FS :=
  fun q => if q = path then some contents else fs q

/-! ## `findJSON`: model of `regexp.MustCompile("(?s)\\{.*\\}").Find` -/

/-- `findJSON` from `main.go`: the regex engine tries successive start
positions (leftmost match) and at a `'{'` the greedy `.*` extends the match
to the last `'}'` of the remainder; with no `'}'` ahead it moves on. -/
def findJSON : List Char → Option (List Char)
  | [] => none
  | a :: rest =>
    if a = '{' then
      match takeToLast '}' rest with
      | some t => some (a :: t)
      | none => findJSON rest
    else findJSON rest

/-! ## Stage 1/2 call adapters -/

/-- The JSON shape the Plan Provider stage decodes (`filepathLLMResponse`). -/
structure FilepathLLMResponse where
  filepaths : List String
  reasoning : List String
deriving Repr, DecidableEq

/-- One shared dependency record (`sharedDependency`). -/
structure SharedDependency where
  name : String
  description : String
  symbols : List (String × String)
deriving Repr, DecidableEq

/-- The JSON/YAML shape of the Dependency Provider stage
(`SharedDependenciesLLMResponse`). -/
structure SharedDependenciesLLMResponse where
  shared_dependencies : List SharedDependency
  reasoning : List String
deriving Repr, DecidableEq

/-- Errors produced by the stage-1/2 adapters, mirroring the `fmt.Errorf`
wrappings in `runFilePathsLLMCall` / `runSharedDependenciesLLMCall`.
`unmarshalFailed` carries the raw response text
(`"failed to unmarshal response: %w\nRaw output: %v"`). -/
inductive LLMCallError where
  | createLLMFailed (cause : String)
  | formatFailed (cause : String)
  | chatFailed (cause : String)
  | unmarshalFailed (cause : String) (rawOutput : String)
deriving Repr, DecidableEq

/-- `encoding/json.Unmarshal` applied to the (possibly nil) result of
`findJSON`: unmarshalling a nil byte slice fails with
`"unexpected end of JSON input"`; otherwise the byte-level decoder
(a parameter of the model) runs. -/
def unmarshalWith {R : Type} (decodeBytes : List Char → Except String R) :
    Option (List Char) → Except String R
  | none => Except.error "unexpected end of JSON input"
  | some bs => decodeBytes bs

/-- `runFilePathsLLMCall` from `main.go`: create the LLM client, issue the
chat call, locate the JSON span with `findJSON` and unmarshal it. The
client-creation outcome, the chat outcome and the byte-level JSON decoder
are parameters (external collaborators). -/
def runFilePathsLLMCall (createErr : Option String) (chat : Except String String)
    (decodeBytes : List Char → Except String FilepathLLMResponse) :
    Except LLMCallError FilepathLLMResponse :=
  match createErr with
  | some c => Except.error (LLMCallError.createLLMFailed c)
  | none =>
    match chat with
    | Except.error e => Except.error (LLMCallError.chatFailed e)
    | Except.ok content =>
      match unmarshalWith decodeBytes (findJSON content.data) with
      | Except.error e => Except.error (LLMCallError.unmarshalFailed e content)
      | Except.ok r => Except.ok r

/-- `runSharedDependenciesLLMCall` from `main.go`: create the client, format
the prompt template, issue the chat call, locate the JSON span with
`findJSON` and unmarshal it. -/
def runSharedDependenciesLLMCall (createErr fmtErr : Option String)
    (chat : Except String String)
    (decodeBytes : List Char → Except String SharedDependenciesLLMResponse) :
    Except LLMCallError SharedDependenciesLLMResponse :=
  match createErr with
  | some c => Except.error (LLMCallError.createLLMFailed c)
  | none =>
    match fmtErr with
    | some c => Except.error (LLMCallError.formatFailed c)
    | none =>
      match chat with
      | Except.error e => Except.error (LLMCallError.chatFailed e)
      | Except.ok content =>
        match unmarshalWith decodeBytes (findJSON content.data) with
        | Except.error e => Except.error (LLMCallError.unmarshalFailed e content)
        | Except.ok r => Except.ok r

/-! ## `getFilesToGenerate` (stage 1 with manifest override) -/

/-- `readStringSliceFromYaml` from `main.go`: open the file and decode its
contents into a string list (the YAML decoding of the text is a parameter). -/
def readStringSliceFromYaml (fs : FS) (decode : String → Except String (List String))
    (path : String) : Except String (List String) :=
  match fs path with
  | none => Except.error "failed to open file"
  | some contents => decode contents

/-- The observable outcome of `getFilesToGenerate`: the returned manifest (or
error), whether the Plan Provider (`runFilePathsLLMCall`) was invoked, and the
filesystem after the optional write-back of the computed manifest. -/
structure PlanOutcome where
  result : Except String (List String)
  llmInvoked : Bool
  fs : FS

/-- `getFilesToGenerate` from `main.go`: when the override flag names an
existing non-empty file, read it (no Plan Provider call); otherwise invoke the
Plan Provider and, when the flag is set, persist the computed list back.
The Plan Provider call and the YAML codec are parameters. -/
def getFilesToGenerate (fs : FS) (llm : Except String FilepathLLMResponse)
    (decode : String → Except String (List String)) (encode : List String → String)
    (flagFilesToGenerate : String) : PlanOutcome :=
  if (flagFilesToGenerate != "") && fileExistsAndNonEmpty fs flagFilesToGenerate then
    { result := readStringSliceFromYaml fs decode flagFilesToGenerate,
      llmInvoked := false, fs := fs }
  else
    match llm with
    | Except.error e =>
      { result := Except.error ("failed to run file paths LLM call: " ++ e),
        llmInvoked := true, fs := fs }
    | Except.ok r =>
      if flagFilesToGenerate != "" then
        { result := Except.ok r.filepaths, llmInvoked := true,
          fs := fsUpdate fs flagFilesToGenerate (encode r.filepaths) }
      else
        { result := Except.ok r.filepaths, llmInvoked := true, fs := fs }

/-! ## YAML document model and `getSharedDependencies` (stage 2) -/

/-- A YAML document as `gopkg.in/yaml.v3` sees it: scalar, sequence or
mapping. -/
inductive Yaml where
  | str (s : String)
  | seq (l : List Yaml)
  | ymap (l : List (String × Yaml))

/-- `yaml.Marshal` of one `sharedDependency` value (untagged struct fields
marshal under their lowercased names). -/
def marshalSharedDependency (d : SharedDependency) : Yaml :=
  Yaml.ymap [("name", Yaml.str d.name), ("description", Yaml.str d.description),
    ("symbols", Yaml.ymap (d.symbols.map (fun p => (p.1, Yaml.str p.2))))]

/-- `yaml.Marshal` of a `[]sharedDependency` value: a YAML sequence. -/
def marshalSharedDependencies (l : List SharedDependency) : Yaml :=
  Yaml.seq (l.map marshalSharedDependency)

/-- `yaml.v3` decoding of a document into a Go `string`. -/
def yamlToString : Yaml → Except String String
  | Yaml.str s => Except.ok s
  | _ => Except.error "cannot unmarshal yaml node into string"

/-- `yaml.v3` decoding of a document into `[]string`. -/
def yamlToStringList : Yaml → Except String (List String)
  | Yaml.seq l =>
    l.foldr (fun y acc =>
      match yamlToString y, acc with
      | Except.ok s, Except.ok rest => Except.ok (s :: rest)
      | Except.error e, _ => Except.error e
      | _, Except.error e => Except.error e) (Except.ok [])
  | _ => Except.error "cannot unmarshal yaml node into string slice"

/-- `yaml.v3` decoding of a document into `map[string]string`. -/
def yamlToSymbols : Yaml → Except String (List (String × String))
  | Yaml.ymap kvs =>
    kvs.foldr (fun kv acc =>
      match yamlToString kv.2, acc with
      | Except.ok v, Except.ok rest => Except.ok ((kv.1, v) :: rest)
      | Except.error e, _ => Except.error e
      | _, Except.error e => Except.error e) (Except.ok [])
  | _ => Except.error "cannot unmarshal yaml node into string map"

/-- `yaml.v3` decoding of a document into one `sharedDependency` struct:
only a mapping decodes into a struct; absent fields keep their zero value. -/
def yamlToSharedDependency (y : Yaml) : Except String SharedDependency :=
  match y with
  | Yaml.ymap kvs =>
    let nameY := (kvs.lookup "name").getD (Yaml.str "")
    let descY := (kvs.lookup "description").getD (Yaml.str "")
    let symsY := (kvs.lookup "symbols").getD (Yaml.ymap [])
    match yamlToString nameY, yamlToString descY, yamlToSymbols symsY with
    | Except.ok n, Except.ok d, Except.ok s =>
      Except.ok { name := n, description := d, symbols := s }
    | Except.error e, _, _ => Except.error e
    | _, Except.error e, _ => Except.error e
    | _, _, Except.error e => Except.error e
  | _ => Except.error "cannot unmarshal yaml node into struct sharedDependency"

/-- `yaml.v3` decoding of a document into `[]sharedDependency`. -/
def yamlToSharedDependencyList : Yaml → Except String (List SharedDependency)
  | Yaml.seq l =>
    l.foldr (fun y acc =>
      match yamlToSharedDependency y, acc with
      | Except.ok d, Except.ok rest => Except.ok (d :: rest)
      | Except.error e, _ => Except.error e
      | _, Except.error e => Except.error e) (Except.ok [])
  | _ => Except.error "cannot unmarshal yaml node into slice of sharedDependency"

/-- `yaml.v3` decoding of a document into the `SharedDependenciesLLMResponse`
struct: only a YAML *mapping* can decode into a Go struct; a sequence
document fails with a type error. -/
def yamlToResponse (y : Yaml) : Except String SharedDependenciesLLMResponse :=
  match y with
  | Yaml.ymap kvs =>
    let depsY := (kvs.lookup "shareddependencies").getD (Yaml.seq [])
    let reasonY := (kvs.lookup "reasoning").getD (Yaml.seq [])
    match yamlToSharedDependencyList depsY, yamlToStringList reasonY with
    | Except.ok ds, Except.ok rs =>
      Except.ok { shared_dependencies := ds, reasoning := rs }
    | Except.error e, _ => Except.error e
    | _, Except.error e => Except.error e
  | _ => Except.error "cannot unmarshal yaml sequence into struct SharedDependenciesLLMResponse"

/-- A filesystem of YAML documents (the override files viewed at the
document level; `yaml.Marshal` output is never zero bytes, so a present
document is a present non-empty file). -/
def FSY : Type := String → Option Yaml

/-- Write a YAML document (`writeYAML` from `main.go`: marshal then
`os.WriteFile`). -/
def fsyUpdate (fsy : FSY) (path : String) (doc : Yaml) : FSY :=
  fun q => if q = path then some doc else fsy q

/-- `readSharedDependenciesFromYaml` from `main.go`: open the file and decode
its YAML document into a `SharedDependenciesLLMResponse`. -/
def readSharedDependenciesFromYaml (fsy : FSY) (path : String) :
    Except String SharedDependenciesLLMResponse :=
  match fsy path with
  | none => Except.error "failed to open shared deps file"
  | some y => yamlToResponse y

/-- `getSharedDependencies` from `main.go`: when the override flag names an
existing non-empty file, read it back; otherwise invoke the Dependency
Provider and, when the flag is set, persist — note the source persists only
`sharedDepsResult.SharedDependencies` (the list), via `writeYAML`. Returns
the result and the filesystem after the run. -/
def getSharedDependencies (fsy : FSY)
    (llm : Except String SharedDependenciesLLMResponse) (flagSharedDeps : String) :
    Except String SharedDependenciesLLMResponse × FSY :=
  if (flagSharedDeps != "") && (fsy flagSharedDeps).isSome then
    (readSharedDependenciesFromYaml fsy flagSharedDeps, fsy)
  else
    match llm with
    | Except.error e =>
      (Except.error ("failed to run shared dependencies LLM call: " ++ e), fsy)
    | Except.ok r =>
      if flagSharedDeps != "" then
        (Except.ok r, fsyUpdate fsy flagSharedDeps
          (marshalSharedDependencies r.shared_dependencies))
      else (Except.ok r, fsy)

/-! ## Stage 3: `generateFiles` / `generateFile` / `runCodeGenLLMCall` -/

/-- Filesystem events a stage-3 task performs, in order. -/
inductive Ev where
  | mkdirAll (dir : String)
  | openFile (path : String)
  | writeChunk (path : String) (chunk : String)
deriving Repr, DecidableEq

/-- Errors produced by a stage-3 task, mirroring the `fmt.Errorf` wrappings
in `generateFile` and `runCodeGenLLMCall`. `llmCallFailed` is the bare
`return err` at the end of `runCodeGenLLMCall`: a failure of the
`GenerateContent` call itself is returned unwrapped. -/
inductive GenError where
  | mkdirFailed (dir : String) (cause : String)
  | createLLMFailed (cause : String)
  | formatSystemPromptFailed (cause : String)
  | formatPromptFailed (cause : String)
  | openFileFailed (file : String) (cause : String)
  | writeFileFailed (file : String) (cause : String)
  | llmCallFailed (cause : String)
deriving Repr, DecidableEq

/-- The user-visible message of a stage-3 error, following the exact
`fmt.Errorf` format strings of the source (with `%w` rendered as the
cause's message). -/
def renderGenError : GenError → String
  | GenError.mkdirFailed d c => "failed to create directory " ++ d ++ ": " ++ c
  | GenError.createLLMFailed c => "failed to create llm: " ++ c
  | GenError.formatSystemPromptFailed c => "failed to format system prompt: " ++ c
  | GenError.formatPromptFailed c => "failed to format prompt: " ++ c
  | GenError.openFileFailed f c => "failed to open file " ++ f ++ ": " ++ c
  | GenError.writeFileFailed f c => "failed to write to file " ++ f ++ ": " ++ c
  | GenError.llmCallFailed c => c

/-- Behaviour of the streaming `GenerateContent` call: full success
delivering all chunks; a chunk write failing inside the streaming callback
(after some chunks were already written), whose wrapped error the call then
returns; or the call itself failing (transport) after some chunks. -/
inductive StreamRes where
  | success (chunks : List String)
  | writeFail (delivered : List String) (cause : String)
  | transportFail (delivered : List String) (cause : String)
deriving Repr, DecidableEq

/-- The chunks actually handed to the streaming callback and written. -/
def deliveredOf : StreamRes → List String
  | StreamRes.success cs => cs
  | StreamRes.writeFail ds _ => ds
  | StreamRes.transportFail ds _ => ds

/-- External-collaborator outcomes a single stage-3 task runs against. -/
structure CodeGenEnv where
  createLLMErr : Option String
  fmtSysErr : Option String
  fmtErr : Option String
  openErr : Option String
  stream : StreamRes

/-- Result of a stage-3 task: filesystem after the run, the ordered events
performed, and the error returned (if any). -/
structure GenFileResult where
  fs : FS
  events : List Ev
  err : Option GenError

/-- `runCodeGenLLMCall` from `main.go`: create the client, format the two
prompts, open the destination with `O_APPEND|O_CREATE|O_WRONLY` (creating an
empty file when absent), then stream: each delivered chunk is appended to the
file at arrival by the streaming callback. A callback write failure is
wrapped with the file path; a failure of the call itself is returned bare. -/
def runCodeGenLLMCall (fs : FS) (file : String) (env : CodeGenEnv) : GenFileResult :=
  match env.createLLMErr with
  | some c => { fs := fs, events := [], err := some (GenError.createLLMFailed c) }
  | none =>
  match env.fmtSysErr with
  | some c => { fs := fs, events := [], err := some (GenError.formatSystemPromptFailed c) }
  | none =>
  match env.fmtErr with
  | some c => { fs := fs, events := [], err := some (GenError.formatPromptFailed c) }
  | none =>
  match env.openErr with
  | some c => { fs := fs, events := [Ev.openFile file],
                err := some (GenError.openFileFailed file c) }
  | none =>
    let ds := deliveredOf env.stream
    let content := ds.foldl (fun acc ch => acc ++ ch) ((fs file).getD "")
    { fs := fsUpdate fs file content,
      events := Ev.openFile file :: ds.map (Ev.writeChunk file),
      err :=
        match env.stream with
        | StreamRes.success _ => none
        | StreamRes.writeFail _ c => some (GenError.writeFileFailed file c)
        | StreamRes.transportFail _ c => some (GenError.llmCallFailed c) }

/-- `generateFile` from `main.go`: `os.MkdirAll(filepath.Dir(fp))` (wrapped
with the directory on failure), then `runCodeGenLLMCall`, whose result is
returned as is. (Progress-bar calls are observational only.) -/
def generateFile (fs : FS) (fp : String) (mkdirErr : Option String)
    (env : CodeGenEnv) : GenFileResult :=
  match mkdirErr with
  | some c =>
    { fs := fs, events := [Ev.mkdirAll (goDir fp)],
      err := some (GenError.mkdirFailed (goDir fp) c) }
  | none =>
    let r := runCodeGenLLMCall fs fp env
    { fs := r.fs, events := Ev.mkdirAll (goDir fp) :: r.events, err := r.err }

/-- The skip loop of `generateFiles` from `main.go`: each manifest entry is
resolved with `pathInTargetDir`; a destination for which `fileExists` holds
is skipped, the rest are submitted as generation tasks (returned here as the
list of resolved destinations, in manifest order). -/
def generateFilesTasks (fs : FS) (targetDir : String) (filesToGenerate : List String) :
    List String :=
  (filesToGenerate.map (pathInTargetDir targetDir)).filter
    (fun dest => ! fileExists fs dest)

/-! ## Substring helper (for statements about error messages) -/

/-- `needle` matches at the head of `hay`. -/
def startsWithL : List Char → List Char → Bool
  | [], _ => true
  | _ :: _, [] => false
  | a :: as, b :: bs => (a == b) && startsWithL as bs

/-- `needle` occurs contiguously somewhere in `hay`. -/
def occursIn (needle : List Char) : List Char → Bool
  | [] => needle.isEmpty
  | b :: bs => startsWithL needle (b :: bs) || occursIn needle bs

/-! ## Lemmas about `takeToLast` and `findJSON` -/

theorem takeToLast_eq_none (c : Char) (l : List Char) :
    takeToLast c l = none ↔ c ∉ l := by
  induction l with
  | nil => simp [takeToLast]
  | cons a rest ih =>
    rw [takeToLast]
    cases h : takeToLast c rest with
    | some t =>
      have hmem : c ∈ rest := by
        by_contra hc
        rw [ih.mpr hc] at h
        exact Option.noConfusion h
      simp [List.mem_cons, hmem]
    | none =>
      have hc : c ∉ rest := ih.mp h
      by_cases hac : a = c
      · subst hac
        simp
      · simp [hac, hc, Ne.symm hac]

theorem takeToLast_eq_some (c : Char) (l t : List Char)
    (h : takeToLast c l = some t) :
    ∃ mid post, l = mid ++ c :: post ∧ c ∉ post ∧ t = mid ++ [c] := by
  induction l generalizing t with
  | nil => exact Option.noConfusion h
  | cons a rest ih =>
    rw [takeToLast] at h
    cases h' : takeToLast c rest with
    | some t' =>
      rw [h'] at h
      obtain ⟨mid, post, h1, h2, h3⟩ := ih t' h'
      refine ⟨a :: mid, post, by rw [h1, List.cons_append], h2, ?_⟩
      have : t = a :: t' := by
        injection h with h
        exact h.symm
      rw [this, h3, List.cons_append]
    | none =>
      rw [h'] at h
      by_cases hac : a = c
      · subst hac
        simp only [if_pos rfl] at h
        have ht : t = [a] := by
          injection h with h
          exact h.symm
        exact ⟨[], rest, by simp, (takeToLast_eq_none a rest).mp h', by simp [ht]⟩
      · rw [if_neg hac] at h
        exact Option.noConfusion h

theorem takeToLast_append (c : Char) (mid post : List Char) (h : c ∉ post) :
    takeToLast c (mid ++ c :: post) = some (mid ++ [c]) := by
  induction mid with
  | nil =>
    rw [List.nil_append, takeToLast, (takeToLast_eq_none c post).mpr h]
    simp
  | cons a mid ih =>
    rw [List.cons_append, takeToLast, ih]
    rfl

theorem findJSON_eq_none_of_no_close (l : List Char) (h : '}' ∉ l) :
    findJSON l = none := by
  induction l with
  | nil => rfl
  | cons a rest ih =>
    have hrest : '}' ∉ rest := fun hm => h (List.mem_cons_of_mem a hm)
    rw [findJSON]
    by_cases ha : a = '{'
    · rw [if_pos ha, (takeToLast_eq_none '}' rest).mpr hrest]
      exact ih hrest
    · rw [if_neg ha]
      exact ih hrest

/-- **C3.** `findJSON` (the model of `regexp.MustCompile("(?s)\\{.*\\}").Find`
in `main.go`) returns exactly the substring extending from the first
occurrence of `'{'` (nothing in `pre` is `'{'`) to the last occurrence of
`'}'` (nothing in `post` is `'}'`), a greedy match spanning newlines, when
some `'{'` occurs before a later `'}'`; otherwise it returns no match. -/
theorem findJSON_first_open_to_last_close (s r : List Char) :
    findJSON s = some r ↔
      ∃ pre mid post, s = pre ++ '{' :: (mid ++ '}' :: post) ∧
        '{' ∉ pre ∧ '}' ∉ post ∧ r = '{' :: (mid ++ ['}']) := by
  induction s with
  | nil =>
    constructor
    · intro h
      exact Option.noConfusion h
    · rintro ⟨pre, mid, post, h1, -, -, -⟩
      exact absurd h1.symm (by simp)
  | cons a rest ih =>
    rw [findJSON]
    by_cases ha : a = '{'
    · subst ha
      rw [if_pos rfl]
      cases h : takeToLast '}' rest with
      | some t =>
        constructor
        · intro heq
          have hr : r = '{' :: t := by
            injection heq with heq
            exact heq.symm
          obtain ⟨mid, post, h1, h2, h3⟩ := takeToLast_eq_some '}' rest t h
          exact ⟨[], mid, post, by rw [h1, List.nil_append], by simp, h2,
            by rw [hr, h3]⟩
        · rintro ⟨pre, mid, post, h1, h2, h3, h4⟩
          cases pre with
          | nil =>
            rw [List.nil_append] at h1
            have hrest : rest = mid ++ '}' :: post := by
              injection h1
            rw [hrest, takeToLast_append '}' mid post h3] at h
            have ht : t = mid ++ ['}'] := by
              injection h with h
              exact h.symm
            rw [ht, h4]
          | cons p ps =>
            rw [List.cons_append] at h1
            have hp : '{' = p := by injection h1
            exact absurd (hp ▸ List.mem_cons_self p ps) h2
      | none =>
        have hnc : '}' ∉ rest := (takeToLast_eq_none '}' rest).mp h
        rw [findJSON_eq_none_of_no_close rest hnc]
        constructor
        · intro heq
          exact Option.noConfusion heq
        · rintro ⟨pre, mid, post, h1, -, -, -⟩
          have hmem : '}' ∈ '{' :: rest := by
            rw [h1]
            simp
          rcases List.mem_cons.mp hmem with h' | h'
          · exact absurd h' (by decide)
          · exact absurd h' hnc
    · rw [if_neg ha, ih]
      constructor
      · rintro ⟨pre, mid, post, h1, h2, h3, h4⟩
        refine ⟨a :: pre, mid, post, by rw [h1, List.cons_append], ?_, h3, h4⟩
        intro hm
        rcases List.mem_cons.mp hm with h' | h'
        · exact ha h'.symm
        · exact h2 h'
      · rintro ⟨pre, mid, post, h1, h2, h3, h4⟩
        cases pre with
        | nil =>
          rw [List.nil_append] at h1
          have : a = '{' := by injection h1
          exact absurd this ha
        | cons p ps =>
          rw [List.cons_append] at h1
          have hrest : rest = ps ++ '{' :: (mid ++ '}' :: post) := by
            injection h1
          exact ⟨ps, mid, post, hrest,
            fun hm => h2 (List.mem_cons_of_mem p hm), h3, h4⟩

/-! ## Skip decision (C1) -/

/-- A filesystem holding exactly one zero-byte file at `"a.go"`. -/
def fsZeroByte : FS := fun p => if p = "a.go" then some "" else none

/-- **C1, counterexample.** The claim says a zero-length destination file is
regenerated. In the code the skip test is `fileExists` (bare `os.Stat`
success): here the destination `"a.go"` exists as a zero-byte file, yet the
task list `generateFiles` submits is empty — the entry is skipped, not
regenerated. -/
theorem zero_byte_destination_is_skipped :
    fsZeroByte "a.go" = some "" ∧
    pathInTargetDir "" "a.go" = "a.go" ∧
    generateFilesTasks fsZeroByte "" ["a.go"] = [] := by
  refine ⟨rfl, by decide, by decide⟩

/-- **C1, amended.** The skip decision in `generateFiles` tests bare
existence: a resolved destination is submitted as a generation task iff it is
absent from the filesystem; any existing destination — zero-byte included —
is skipped. -/
theorem task_issued_iff_destination_absent (fs : FS) (targetDir : String)
    (filesToGenerate : List String) (dest : String) :
    dest ∈ generateFilesTasks fs targetDir filesToGenerate ↔
      dest ∈ filesToGenerate.map (pathInTargetDir targetDir) ∧ fs dest = none := by
  rw [generateFilesTasks, List.mem_filter]
  constructor
  · rintro ⟨hmem, hex⟩
    refine ⟨hmem, ?_⟩
    cases h : fs dest with
    | none => rfl
    | some v => rw [fileExists, h] at hex; exact Bool.noConfusion hex
  · rintro ⟨hmem, habs⟩
    exact ⟨hmem, by rw [fileExists, habs]; rfl⟩

/-! ## Manifest override precedence (C2) -/

/-- **C2.** When the manifest override flag is set and names an existing
non-empty file, `getFilesToGenerate` never invokes the Plan Provider and
returns exactly the path list decoded from the override file, in order. -/
theorem manifest_override_bypasses_plan_provider (fs : FS)
    (llm : Except String FilepathLLMResponse)
    (decode : String → Except String (List String)) (encode : List String → String)
    (flagFilesToGenerate contents : String) (paths : List String)
    (hflag : flagFilesToGenerate ≠ "")
    (hfs : fs flagFilesToGenerate = some contents)
    (hne : 0 < contents.length)
    (hdec : decode contents = Except.ok paths) :
    (getFilesToGenerate fs llm decode encode flagFilesToGenerate).llmInvoked = false ∧
    (getFilesToGenerate fs llm decode encode flagFilesToGenerate).result =
      Except.ok paths := by
  have hexn : fileExistsAndNonEmpty fs flagFilesToGenerate = true := by
    rw [fileExistsAndNonEmpty, fileExists, hfs]
    simp [hne]
  have hcond : ((flagFilesToGenerate != "") && fileExistsAndNonEmpty fs flagFilesToGenerate) = true := by
    rw [hexn, Bool.and_true, bne_iff_ne]
    exact hflag
  rw [getFilesToGenerate.eq_def, if_pos hcond]
  exact ⟨rfl, by rw [readStringSliceFromYaml, hfs]; exact hdec⟩

/-- Concrete override filesystem for the C2 witness. -/
def fsManifestOverride : FS :=
  fun p => if p = "files.yaml" then some "- a.go" else none

/-- Concrete YAML string-list decoder for the C2 witness. -/
def decodeManifestW : String → Except String (List String) :=
  fun s => if s = "- a.go" then Except.ok ["a.go"] else Except.error "yaml"

/-- Witness for C2 at a concrete override file. -/
theorem manifest_override_bypasses_plan_provider_witness :
    (getFilesToGenerate fsManifestOverride (Except.error "unused") decodeManifestW
        (fun _ => "") "files.yaml").llmInvoked = false ∧
    (getFilesToGenerate fsManifestOverride (Except.error "unused") decodeManifestW
        (fun _ => "") "files.yaml").result = Except.ok ["a.go"] :=
  manifest_override_bypasses_plan_provider fsManifestOverride (Except.error "unused")
    decodeManifestW (fun _ => "") "files.yaml" "- a.go" ["a.go"]
    (by decide) rfl (by decide) rfl

/-! ## Streaming persistence (C5) -/

/-- **C5.** With the destination absent (the only case `generateFiles`
submits), a stage-3 task appends every delivered chunk to the destination at
arrival: on full success the file holds exactly the concatenation of the
Content Generator's chunks, with no added wrapping and no fence stripping;
on a mid-stream transport or write failure the file holds exactly the
concatenation of the chunks delivered before the failure; and the event
trace records one write per chunk, in order. -/
theorem streaming_appends_chunks_exactly (fs : FS) (fp : String)
    (chunks ds : List String) (c : String) (habsent : fs fp = none) :
    ((generateFile fs fp none ⟨none, none, none, none, StreamRes.success chunks⟩).fs fp =
        some (String.join chunks)) ∧
    ((generateFile fs fp none ⟨none, none, none, none, StreamRes.transportFail ds c⟩).fs fp =
        some (String.join ds)) ∧
    ((generateFile fs fp none ⟨none, none, none, none, StreamRes.writeFail ds c⟩).fs fp =
        some (String.join ds)) ∧
    ((generateFile fs fp none ⟨none, none, none, none, StreamRes.success chunks⟩).events =
        Ev.mkdirAll (goDir fp) :: Ev.openFile fp :: chunks.map (Ev.writeChunk fp)) := by
  refine ⟨?_, ?_, ?_, rfl⟩ <;>
    simp [generateFile, runCodeGenLLMCall, deliveredOf, fsUpdate, habsent, String.join]

/-- Witness for C5 at a concrete two-chunk stream. -/
theorem streaming_appends_chunks_exactly_witness :
    ((generateFile (fun _ => none) "a.go" none
        ⟨none, none, none, none, StreamRes.success ["ab", "cd"]⟩).fs "a.go" =
      some (String.join ["ab", "cd"])) ∧
    ((generateFile (fun _ => none) "a.go" none
        ⟨none, none, none, none, StreamRes.transportFail ["ab"] "boom"⟩).fs "a.go" =
      some (String.join ["ab"])) ∧
    ((generateFile (fun _ => none) "a.go" none
        ⟨none, none, none, none, StreamRes.writeFail ["ab"] "boom"⟩).fs "a.go" =
      some (String.join ["ab"])) ∧
    ((generateFile (fun _ => none) "a.go" none
        ⟨none, none, none, none, StreamRes.success ["ab", "cd"]⟩).events =
      Ev.mkdirAll (goDir "a.go") :: Ev.openFile "a.go" ::
        (["ab", "cd"] : List String).map (Ev.writeChunk "a.go")) :=
  streaming_appends_chunks_exactly (fun _ => none) "a.go" ["ab", "cd"] ["ab"] "boom" rfl

/-! ## Path resolution (C8) -/

/-- **C8.** The manifest entry `"src/util/helpers.go"` under target directory
`"/out"` resolves to `"/out/src/util/helpers.go"`, and in every stage-3 task
that reaches the filesystem the `MkdirAll` of the destination's parent
directory chain comes before the destination is opened for writing. -/
theorem path_resolution_and_mkdir_before_open :
    pathInTargetDir "/out" "src/util/helpers.go" = "/out/src/util/helpers.go" ∧
    ∀ (fs : FS) (fp : String) (env : CodeGenEnv),
      env.createLLMErr = none → env.fmtSysErr = none → env.fmtErr = none →
      (generateFile fs fp none env).events.take 2 =
        [Ev.mkdirAll (goDir fp), Ev.openFile fp] := by
  refine ⟨by decide, ?_⟩
  rintro fs fp ⟨ce, se, fe, oe, st⟩ h1 h2 h3
  simp only at h1 h2 h3
  subst h1 h2 h3
  cases oe <;> rfl

/-- Witness for C8's quantified part at a concrete task. -/
theorem path_resolution_and_mkdir_before_open_witness :
    (generateFile (fun _ => none) "/out/src/util/helpers.go" none
        ⟨none, none, none, none, StreamRes.success ["x"]⟩).events.take 2 =
      [Ev.mkdirAll (goDir "/out/src/util/helpers.go"),
       Ev.openFile "/out/src/util/helpers.go"] :=
  path_resolution_and_mkdir_before_open.2 (fun _ => none) "/out/src/util/helpers.go"
    ⟨none, none, none, none, StreamRes.success ["x"]⟩ rfl rfl rfl

/-! ## Path traversal (C10) -/

/-- **C10.** `pathInTargetDir` performs no containment check: the manifest
entry `"../../etc/passwd"` under target directory `"/out"` resolves to
`"/etc/passwd"`, which lies outside `"/out"` (it is not `"/out"` and
`"/out/"` is not a prefix of it), so a generation task may write outside the
target directory. -/
theorem dotdot_entry_escapes_target_dir :
    pathInTargetDir "/out" "../../etc/passwd" = "/etc/passwd" ∧
    "/etc/passwd" ≠ "/out" ∧
    ¬ ("/out/".data <+: "/etc/passwd".data) := by
  refine ⟨by decide, by decide, by decide⟩

/-! ## Malformed responses (C4) -/

/-- **C4.** Whenever no JSON object span is found in a Plan Provider or
Dependency Provider response (so `findJSON` returns nil and
`json.Unmarshal` fails on nil input), or a span is found but fails to
unmarshal, the stage call returns the unmarshal error carrying the original
raw response text — being an `Except.error`, it is never an empty or
default manifest/dependency result. -/
theorem malformed_response_surfaces_with_raw_text (content : String)
    (decP : List Char → Except String FilepathLLMResponse)
    (decS : List Char → Except String SharedDependenciesLLMResponse)
    (hP : ∀ b, findJSON content.data = some b → ∃ e, decP b = Except.error e)
    (hS : ∀ b, findJSON content.data = some b → ∃ e, decS b = Except.error e) :
    (∃ e, runFilePathsLLMCall none (Except.ok content) decP =
        Except.error (LLMCallError.unmarshalFailed e content)) ∧
    (∃ e, runSharedDependenciesLLMCall none none (Except.ok content) decS =
        Except.error (LLMCallError.unmarshalFailed e content)) := by
  constructor
  · cases hfj : findJSON content.data with
    | none =>
      exact ⟨"unexpected end of JSON input",
        by simp [runFilePathsLLMCall, unmarshalWith, hfj]⟩
    | some b =>
      obtain ⟨e, he⟩ := hP b hfj
      exact ⟨e, by simp [runFilePathsLLMCall, unmarshalWith, hfj, he]⟩
  · cases hfj : findJSON content.data with
    | none =>
      exact ⟨"unexpected end of JSON input",
        by simp [runSharedDependenciesLLMCall, unmarshalWith, hfj]⟩
    | some b =>
      obtain ⟨e, he⟩ := hS b hfj
      exact ⟨e, by simp [runSharedDependenciesLLMCall, unmarshalWith, hfj, he]⟩

/-- Witness for C4 at a concrete brace-free response text. -/
theorem malformed_response_surfaces_with_raw_text_witness :
    (∃ e, runFilePathsLLMCall none (Except.ok "no json here")
        (fun _ => Except.error "boom") =
        Except.error (LLMCallError.unmarshalFailed e "no json here")) ∧
    (∃ e, runSharedDependenciesLLMCall none none (Except.ok "no json here")
        (fun _ => Except.error "boom") =
        Except.error (LLMCallError.unmarshalFailed e "no json here")) :=
  malformed_response_surfaces_with_raw_text "no json here"
    (fun _ => Except.error "boom") (fun _ => Except.error "boom")
    (fun _ _ => ⟨"boom", rfl⟩) (fun _ _ => ⟨"boom", rfl⟩)

/-! ## Stage-3 error context (C6) -/

/-- **C6, counterexample.** A stage-3 task whose Content Generator call
itself fails (transport error, no chunk delivered) returns the cause bare:
`runCodeGenLLMCall` ends with `return err`, so neither the wrapper text nor
the destination path `"out/a.go"` appears in the surfaced message. -/
theorem llm_call_failure_error_lacks_file_path :
    (generateFile (fun _ => none) "out/a.go" none
        ⟨none, none, none, none, StreamRes.transportFail [] "network timeout"⟩).err =
      some (GenError.llmCallFailed "network timeout") ∧
    renderGenError (GenError.llmCallFailed "network timeout") = "network timeout" ∧
    occursIn "out/a.go".data "network timeout".data = false := by
  refine ⟨rfl, rfl, by decide⟩

/-- **C6, amended.** Stage-3 errors from directory creation, file opening
and chunk writes are wrapped with the relevant path (the destination's
parent directory for `MkdirAll`, the destination itself for open/write)
together with the underlying cause; but a failure of the Content Generator
call itself is returned unwrapped, its message being the bare cause with no
file path attached. -/
theorem stage3_error_wrapping (fs : FS) (fp c : String) (ds : List String)
    (env : CodeGenEnv) :
    ((generateFile fs fp (some c) env).err =
        some (GenError.mkdirFailed (goDir fp) c) ∧
      renderGenError (GenError.mkdirFailed (goDir fp) c) =
        "failed to create directory " ++ goDir fp ++ ": " ++ c) ∧
    ((generateFile fs fp none ⟨none, none, none, some c, env.stream⟩).err =
        some (GenError.openFileFailed fp c) ∧
      renderGenError (GenError.openFileFailed fp c) =
        "failed to open file " ++ fp ++ ": " ++ c) ∧
    ((generateFile fs fp none ⟨none, none, none, none, StreamRes.writeFail ds c⟩).err =
        some (GenError.writeFileFailed fp c) ∧
      renderGenError (GenError.writeFileFailed fp c) =
        "failed to write to file " ++ fp ++ ": " ++ c) ∧
    ((generateFile fs fp none ⟨none, none, none, none, StreamRes.transportFail ds c⟩).err =
        some (GenError.llmCallFailed c) ∧
      renderGenError (GenError.llmCallFailed c) = c) :=
  ⟨⟨rfl, rfl⟩, ⟨rfl, rfl⟩, ⟨rfl, rfl⟩, ⟨rfl, rfl⟩⟩

/-! ## Dependency-descriptor round trip (C7) -/

/-- A concrete computed dependency descriptor. -/
def depsExample : SharedDependenciesLLMResponse :=
  { shared_dependencies :=
      [{ name := "db", description := "shared database handle",
         symbols := [("Conn", "the connection")] }],
    reasoning := ["files share the db"] }

/-- **C7 (code bug).** `getSharedDependencies` persists only the
`SharedDependencies` *list* (a YAML sequence) to the override path, but
`readSharedDependenciesFromYaml` decodes the file into the
`SharedDependenciesLLMResponse` *struct*, and a YAML sequence cannot
unmarshal into a struct: the write-then-read round trip fails on the very
next run instead of returning the persisted descriptor. -/
theorem shared_deps_write_then_read_fails :
    ((getSharedDependencies (fun _ => none) (Except.ok depsExample) "deps.yaml").2
        "deps.yaml" =
      some (marshalSharedDependencies depsExample.shared_dependencies)) ∧
    (getSharedDependencies
        (getSharedDependencies (fun _ => none) (Except.ok depsExample) "deps.yaml").2
        (Except.ok depsExample) "deps.yaml").1 =
      Except.error
        "cannot unmarshal yaml sequence into struct SharedDependenciesLLMResponse" := by
  refine ⟨rfl, rfl⟩

end SmolDev
